import Mathlib

/-
Verification of the file-operation history/undo subsystem and of the
two-phase AI generation planner of the fintonlabs code-generator
extension.

The embedding follows the TypeScript source:
  - HistoryManager, FileCreateOperation, FileUpdateOperation,
    FileDeleteOperation (historyManager.ts);
  - FileSystemService.createFile / updateFile / deleteFile / readFile /
    fileExists / ensureDirectory (fileSystemService.ts);
  - AICodeGeneratorService: the token-estimate strategy decision in
    _generateProjectStructure, the chunked pipeline _generateLargerProject,
    and the per-entry dispatch loop of updateApplication (aiCodeGenerator.ts).

Modelling conventions:
  - A file path is a list of segments; path.dirname is List.dropLast.
  - File contents are byte sequences (List Nat); the Buffer.from 'utf8'
    encoding that happens before every write is outside the model, the
    service functions take the encoded bytes directly.
  - vscode.workspace.fs is an external backend; it is modelled as a
    Storage value holding the files and directories plus three sets of
    paths on which stat / writeFile / delete raise, so that backend
    failures are expressible.
  - JSON.parse and the AI completion calls are external collaborators;
    they enter as function parameters (a parser for string arrays, and a
    per-path generation outcome).
  - Thrown JavaScript errors become Except values; the distinct error
    messages of the source become constructors of FSError.
-/

abbrev FilePath2 := List String
abbrev ByteSeq := List Nat

/-- The storage backend: the files (an association list from path to
bytes), the directories, and the paths on which each backend primitive
raises. -/
structure Storage where
  files : List (FilePath2 × ByteSeq)
  dirs : List FilePath2
  statBroken : List FilePath2
  writeBroken : List FilePath2
  deleteBroken : List FilePath2
deriving DecidableEq, Repr

inductive StatErr where
  | notFound
  | ioError
deriving DecidableEq, Repr

def Storage.lookup (s : Storage) (p : FilePath2) : Option ByteSeq :=
  (s.files.find? (fun e => decide (e.1 = p))).map (fun e => e.2)

/-- vscode.workspace.fs.stat: raises FileNotFound when the entry is
absent, and an IOError on a broken path. -/
def Storage.stat (s : Storage) (p : FilePath2) : Except StatErr Unit :=
  if p ∈ s.statBroken then .error .ioError
  else if (s.lookup p).isSome ∨ p ∈ s.dirs then .ok ()
  else .error .notFound

/-- vscode.workspace.fs.readFile. -/
def Storage.fsRead (s : Storage) (p : FilePath2) : Except String ByteSeq :=
  match s.lookup p with
  | some b => .ok b
  | none => .error ("FileNotFound")

/-- vscode.workspace.fs.writeFile: creates or overwrites. -/
def Storage.fsWrite (s : Storage) (p : FilePath2) (b : ByteSeq) : Except String Storage :=
  if p ∈ s.writeBroken then .error ("write failed")
  else .ok { s with files := (p, b) :: s.files.filter (fun e => decide (e.1 ≠ p)) }

/-- vscode.workspace.fs.delete: raises when the entry is absent. -/
def Storage.fsDelete (s : Storage) (p : FilePath2) : Except String Storage :=
  if p ∈ s.deleteBroken then .error ("delete failed")
  else if (s.lookup p).isSome then
    .ok { s with files := s.files.filter (fun e => decide (e.1 ≠ p)) }
  else .error ("EntryNotFound")

/-- vscode.workspace.fs.createDirectory. -/
def Storage.mkdir (s : Storage) (p : FilePath2) : Storage :=
  { s with dirs := p :: s.dirs }

/-- FileOperation variants of historyManager.ts: FileCreateOperation
carries only the path, FileUpdateOperation and FileDeleteOperation also
carry the previously captured bytes. -/
inductive FileOperation where
  | create (path : FilePath2)
  | update (path : FilePath2) (previousContent : ByteSeq)
  | delete (path : FilePath2) (previousContent : ByteSeq)
deriving DecidableEq, Repr

/-- The undo method of each FileOperation class: create deletes the
path, update and delete write back the captured bytes; a backend failure
is wrapped in the message of the corresponding catch block. -/
def FileOperation.applyUndo : FileOperation → Storage → Except String Storage
  | .create p, s =>
      (s.fsDelete p).mapError (fun e => "Failed to undo file creation: " ++ e)
  | .update p prev, s =>
      (s.fsWrite p prev).mapError (fun e => "Failed to undo file update: " ++ e)
  | .delete p prev, s =>
      (s.fsWrite p prev).mapError (fun e => "Failed to undo file deletion: " ++ e)

/-- HistoryManager: the operation list and the _maxHistorySize field
(100 in the source constructor). -/
structure HistoryManager where
  operations : List FileOperation
  maxHistorySize : Nat := 100
deriving DecidableEq, Repr

/-- HistoryManager.recordOperation: push, then shift once when the
length exceeds _maxHistorySize. -/
def HistoryManager.recordOperation (h : HistoryManager) (op : FileOperation) : HistoryManager :=
  let ops := h.operations ++ [op]
  { operations := if h.maxHistorySize < ops.length then ops.drop 1 else ops
    maxHistorySize := h.maxHistorySize }

def recordAll (h : HistoryManager) (l : List FileOperation) : HistoryManager :=
  l.foldl HistoryManager.recordOperation h

/-- The outcome HistoryManager.undo reports through the vscode message
boxes. -/
inductive UndoOutcome where
  | nothingToUndo
  | undone
  | undoFailed (cause : String)
deriving DecidableEq, Repr

/-- The mutable state a FileSystemService call touches: the backend and
the history manager it records into. -/
structure SysState where
  storage : Storage
  history : HistoryManager
deriving DecidableEq, Repr

/-- HistoryManager.undo: pop first, then run the undo of the popped
operation; on failure the entry is not re-pushed and the error message
is surfaced. -/
def undoLast (st : SysState) : UndoOutcome × SysState :=
  match st.history.operations.getLast? with
  | none => (.nothingToUndo, st)
  | some op =>
    let h2 : HistoryManager :=
      { operations := st.history.operations.dropLast
        maxHistorySize := st.history.maxHistorySize }
    match op.applyUndo st.storage with
    | .ok s2 => (.undone, ⟨s2, h2⟩)
    | .error e => (.undoFailed ("Failed to undo operation: " ++ e), ⟨st.storage, h2⟩)

/-- The service-level error kinds, one per distinct throw message of
fileSystemService.ts. -/
inductive FSError where
  | alreadyExists (p : FilePath2)
  | notFound (p : FilePath2)
  | ioError (msg : String)
deriving DecidableEq, Repr

/-- FileSystemService.fileExists: stat, true on success, false on any
throw. -/
def fileExists (s : Storage) (p : FilePath2) : Bool :=
  match s.stat p with
  | .ok _ => true
  | .error _ => false

/-- FileSystemService.ensureDirectory: stat, and create the directory
when stat throws (directory creation is modelled as always
succeeding). -/
def ensureDirectory (s : Storage) (dir : FilePath2) : Storage :=
  match s.stat dir with
  | .ok _ => s
  | .error _ => s.mkdir dir

/-- FileSystemService.createFile: ensure the parent directory, probe
existence, write, record a FileCreateOperation.  The returned pair is
the outcome together with the state as mutated so far (a directory
created by ensureDirectory persists even when a later step throws). -/
def createFile (st : SysState) (fp : FilePath2) (content : ByteSeq) :
    Except FSError Unit × SysState :=
  let s1 := ensureDirectory st.storage fp.dropLast
  if fileExists s1 fp then (.error (.alreadyExists fp), ⟨s1, st.history⟩)
  else
    match s1.fsWrite fp content with
    | .error e => (.error (.ioError e), ⟨s1, st.history⟩)
    | .ok s2 => (.ok (), ⟨s2, st.history.recordOperation (.create fp)⟩)

/-- FileSystemService.updateFile: probe existence, read the prior bytes,
write, record a FileUpdateOperation carrying the prior bytes. -/
def updateFile (st : SysState) (fp : FilePath2) (content : ByteSeq) :
    Except FSError Unit × SysState :=
  if fileExists st.storage fp then
    match st.storage.fsRead fp with
    | .error e => (.error (.ioError e), st)
    | .ok prev =>
      match st.storage.fsWrite fp content with
      | .error e => (.error (.ioError e), st)
      | .ok s2 => (.ok (), ⟨s2, st.history.recordOperation (.update fp prev)⟩)
  else (.error (.notFound fp), st)

/-- FileSystemService.deleteFile: probe existence, read the prior bytes,
delete, record a FileDeleteOperation carrying the prior bytes. -/
def deleteFile (st : SysState) (fp : FilePath2) :
    Except FSError Unit × SysState :=
  if fileExists st.storage fp then
    match st.storage.fsRead fp with
    | .error e => (.error (.ioError e), st)
    | .ok prev =>
      match st.storage.fsDelete fp with
      | .error e => (.error (.ioError e), st)
      | .ok s2 => (.ok (), ⟨s2, st.history.recordOperation (.delete fp prev)⟩)
  else (.error (.notFound fp), st)

/-- The size estimate of _generateProjectStructure:
description.length / 4 + 1000, computed in JavaScript float arithmetic,
modelled exactly over the rationals. -/
def estimatedTokens (descriptionLength : Nat) : ℚ :=
  (descriptionLength : ℚ) / 4 + 1000

/-- The strategy decision of _generateProjectStructure: the chunked
pipeline runs exactly when estimatedTokens exceeds 2000. -/
def usesChunkedStrategy (descriptionLength : Nat) : Bool :=
  decide ((2000 : ℚ) < estimatedTokens descriptionLength)

def lbracketChar : Char := ('[')

def rbracketChar : Char := (']')

def newlineChar : Char := Char.ofNat 10

def backtickChar : Char := Char.ofNat 96

/-- The lazy part of the structure-phase regex: the characters up to the
first closing bracket, or none when no closing bracket follows. -/
def takeUntilClose : List Char → Option (List Char)
  | [] => none
  | c :: rest =>
    if c = rbracketChar then some []
    else (takeUntilClose rest).map (fun l => c :: l)

/-- The capture group of structureResponse.match over the
first-bracket-to-first-following-close pattern: the regex matches at the
first opening bracket of the response, and only when some closing
bracket follows it. -/
def extractBracketInner : List Char → Option (List Char)
  | [] => none
  | c :: rest =>
    if c = lbracketChar then takeUntilClose rest
    else extractBracketInner rest

def isWordChar (c : Char) : Bool :=
  c.isAlphanum || c = Char.ofNat 95

/-- The lazy body of the fenced-code regex: the characters up to the
earliest newline-backtick-backtick-backtick terminator. -/
def takeFenceBody : List Char → Option (List Char)
  | [] => none
  | c :: rest =>
    if c = newlineChar ∧ rest.take 3 = [backtickChar, backtickChar, backtickChar] then some []
    else (takeFenceBody rest).map (fun l => c :: l)

/-- The capture group of the fenced-code regex used on per-file
responses: a triple backtick, an optional language word, a newline, then
the lazy body up to a newline-plus-triple-backtick terminator; the match
is attempted at every start position in order. -/
def findFenceBody : List Char → Option (List Char)
  | [] => none
  | c :: rest =>
    if (c :: rest).take 3 = [backtickChar, backtickChar, backtickChar] then
      match ((c :: rest).drop 3).dropWhile isWordChar with
      | d :: body =>
        if d = newlineChar then
          match takeFenceBody body with
          | some content => some content
          | none => findFenceBody rest
        else findFenceBody rest
      | [] => findFenceBody rest
    else findFenceBody rest

/-- The cleanup applied to each per-file response: the trimmed fence
body when the fence matched with a non-empty body (an empty capture
group is falsy in JavaScript and falls back), else the trimmed raw
response. -/
def cleanCode (s : String) : String :=
  match findFenceBody s.data with
  | some [] => s.trim
  | some body => (String.mk body).trim
  | none => s.trim

/-- The error thrown by _generateLargerProject when the bracketed
substring of the structure response fails to parse. -/
inductive GenError where
  | planningFailed
deriving DecidableEq, Repr

structure GeneratedFile where
  path : String
  content : String
deriving DecidableEq, Repr

/-- The structure phase of _generateLargerProject: filePaths starts
empty; when the bracket regex matches, the bracketed text is rebuilt and
parsed (JSON.parse is the external parse parameter); a parse failure is
caught and rethrown as the planning failure; no match leaves filePaths
empty. -/
def structurePaths (parse : String → Option (List String)) (structureResponse : String) :
    Except GenError (List String) :=
  match extractBracketInner structureResponse.data with
  | none => .ok []
  | some inner =>
    match parse ("[" ++ String.mk inner ++ "]") with
    | some ps => .ok ps
    | none => .error .planningFailed

/-- The per-path body of the content loop of _generateLargerProject:
a successful _callAI response is cleaned up, a thrown error is caught
and replaced by the placeholder content naming it. -/
def contentFor (fileGen : String → Except String String) (p : String) : GeneratedFile :=
  match fileGen p with
  | .ok resp => ⟨p, cleanCode resp⟩
  | .error e => ⟨p, "// Failed to generate content for this file: " ++ e⟩

/-- _generateLargerProject: the structure phase produces the path list,
then the content loop fills every path in order. -/
def generateLargerProject (parse : String → Option (List String))
    (structureResponse : String) (fileGen : String → Except String String) :
    Except GenError (List GeneratedFile) :=
  (structurePaths parse structureResponse).map (fun ps => ps.map (contentFor fileGen))

/-- One entry of an UpdatePlan: the action tag is the raw string of the
parsed JSON, the content field may be absent. -/
structure UpdateEntry where
  path : FilePath2
  action : String
  content : Option ByteSeq
deriving DecidableEq, Repr

/-- The per-entry dispatch of updateApplication: create, update and
delete are selected by comparing the action tag, and a missing content
is replaced by the empty content (the JavaScript or-with-empty-string
default); an unrecognized tag does nothing. -/
def applyUpdateEntry (st : SysState) (e : UpdateEntry) :
    Except FSError Unit × SysState :=
  if e.action = "create" then createFile st e.path (e.content.getD [])
  else if e.action = "update" then updateFile st e.path (e.content.getD [])
  else if e.action = "delete" then deleteFile st e.path
  else (.ok (), st)

/- Helper lemmas about the embedding. -/

theorem HistoryManager.recordOperation_max (h : HistoryManager) (op : FileOperation) :
    (h.recordOperation op).maxHistorySize = h.maxHistorySize := rfl

theorem recordAll_max (h : HistoryManager) (l : List FileOperation) :
    (recordAll h l).maxHistorySize = h.maxHistorySize := by
  induction l generalizing h with
  | nil => rfl
  | cons op l ih =>
    rw [recordAll, List.foldl_cons]
    exact (ih (h.recordOperation op)).trans (h.recordOperation_max op)

theorem recordAll_append_one (h : HistoryManager) (l : List FileOperation)
    (a : FileOperation) :
    recordAll h (l ++ [a]) = (recordAll h l).recordOperation a := by
  simp [recordAll, List.foldl_append]

theorem recordAll_operations (n : Nat) (l : List FileOperation) :
    (recordAll ⟨[], n⟩ l).operations = l.drop (l.length - n) := by
  induction l using List.reverseRecOn with
  | nil => simp [recordAll]
  | append_singleton l a ih =>
    rw [recordAll_append_one]
    have hmax : (recordAll ⟨[], n⟩ l).maxHistorySize = n := recordAll_max _ l
    rw [HistoryManager.recordOperation]
    dsimp only
    rw [ih, hmax]
    rcases Nat.lt_or_ge l.length n with hm | hm
    · have h1 : l.length - n = 0 := by omega
      have h2 : l.length + 1 - n = 0 := by omega
      rw [h1, List.drop_zero, if_neg (by simp; omega)]
      rw [List.length_append, List.length_cons, List.length_nil, h2, List.drop_zero]
    · rcases Nat.eq_zero_or_pos n with hn | hn
      · subst hn
        rw [Nat.sub_zero, List.drop_length, if_pos (by simp)]
        rw [List.nil_append]
        rw [show (l ++ [a]).length - 0 = (l ++ [a]).length by omega]
        rw [List.drop_length]
        rfl
      · have hD : (l.drop (l.length - n)).length = n := by
          rw [List.length_drop]; omega
        rw [if_pos (by rw [List.length_append, hD]; simp)]
        cases hd : l.drop (l.length - n) with
        | nil => rw [hd] at hD; simp at hD; omega
        | cons d ds =>
          have hds : ds = l.drop (l.length - n + 1) := by
            have := List.tail_drop l (l.length - n)
            rw [hd] at this
            simpa using this
          rw [List.cons_append, List.drop_one, List.tail_cons, hds]
          rw [show (l ++ [a]).length - n = l.length - n + 1 by
            rw [List.length_append]; simp; omega]
          rw [List.drop_append_of_le_length (by omega)]

theorem recordOperation_getLast (h : HistoryManager) (op : FileOperation)
    (hpos : 1 ≤ h.maxHistorySize) :
    (h.recordOperation op).operations.getLast? = some op := by
  rw [HistoryManager.recordOperation]
  dsimp only
  split
  · rename_i hlen
    cases hops : h.operations with
    | nil =>
      rw [hops] at hlen
      simp at hlen
      omega
    | cons x xs =>
      rw [List.cons_append, List.drop_one, List.tail_cons]
      exact List.getLast?_concat _
  · exact List.getLast?_concat _

theorem mapError_ok_inv {α β γ : Type} (f : β → γ) (x : Except β α) (a : α)
    (h : x.mapError f = .ok a) : x = .ok a := by
  cases x with
  | ok b => simpa [Except.mapError] using h
  | error e => simp [Except.mapError] at h

theorem fsWrite_ok_lookup (s : Storage) (p : FilePath2) (b : ByteSeq) (t : Storage)
    (h : s.fsWrite p b = .ok t) : t.lookup p = some b := by
  rw [Storage.fsWrite] at h
  split at h
  · simp at h
  · simp only [Except.ok.injEq] at h
    subst h
    rw [Storage.lookup]
    rw [List.find?_cons_of_pos _ (by simp)]
    rfl

theorem fsDelete_ok_lookup (s : Storage) (p : FilePath2) (t : Storage)
    (h : s.fsDelete p = .ok t) : t.lookup p = none := by
  rw [Storage.fsDelete] at h
  split at h
  · simp at h
  · split at h
    · simp only [Except.ok.injEq] at h
      subst h
      rw [Storage.lookup]
      have hnone : (s.files.filter (fun e => decide (e.1 ≠ p))).find?
          (fun e => decide (e.1 = p)) = none := by
        rw [List.find?_eq_none]
        intro x hx
        have := (List.mem_filter.mp hx).2
        simp at this ⊢
        exact this
      rw [hnone]
      rfl
    · simp at h

theorem undoLast_ok (st : SysState) (op : FileOperation) (t : Storage)
    (hlast : st.history.operations.getLast? = some op)
    (happ : op.applyUndo st.storage = .ok t) :
    undoLast st =
      (.undone, ⟨t, ⟨st.history.operations.dropLast, st.history.maxHistorySize⟩⟩) := by
  rw [undoLast, hlast]
  dsimp only
  rw [happ]

theorem undoLast_err (st : SysState) (op : FileOperation) (e : String)
    (hlast : st.history.operations.getLast? = some op)
    (happ : op.applyUndo st.storage = .error e) :
    undoLast st =
      (.undoFailed ("Failed to undo operation: " ++ e),
        ⟨st.storage, ⟨st.history.operations.dropLast, st.history.maxHistorySize⟩⟩) := by
  rw [undoLast, hlast]
  dsimp only
  rw [happ]

theorem ensureDirectory_statBroken (s : Storage) (d : FilePath2) :
    (ensureDirectory s d).statBroken = s.statBroken := by
  rw [ensureDirectory]
  split <;> rfl

theorem ensureDirectory_writeBroken (s : Storage) (d : FilePath2) :
    (ensureDirectory s d).writeBroken = s.writeBroken := by
  rw [ensureDirectory]
  split <;> rfl

theorem ensureDirectory_files (s : Storage) (d : FilePath2) :
    (ensureDirectory s d).files = s.files := by
  rw [ensureDirectory]
  split <;> rfl

theorem stat_ioError_mem (s : Storage) (p : FilePath2)
    (h : s.stat p = .error .ioError) : p ∈ s.statBroken := by
  rw [Storage.stat] at h
  split at h
  · assumption
  · split at h <;> simp_all

theorem fileExists_false_of_stat_err (s : Storage) (p : FilePath2) (e : StatErr)
    (h : s.stat p = .error e) : fileExists s p = false := by
  rw [fileExists, h]

theorem fileExists_true_of_stat_ok (s : Storage) (p : FilePath2)
    (h : s.stat p = .ok ()) : fileExists s p = true := by
  rw [fileExists, h]

theorem createFile_ok_history (st st2 : SysState) (fp : FilePath2) (c : ByteSeq)
    (h : createFile st fp c = (.ok (), st2)) :
    st2.history = st.history.recordOperation (.create fp) := by
  simp only [createFile] at h
  split at h
  · simp at h
  · split at h
    · simp at h
    · simp only [Prod.mk.injEq] at h
      rw [← h.2]

theorem updateFile_ok_history (st st2 : SysState) (fp : FilePath2) (c prev : ByteSeq)
    (hprev : st.storage.lookup fp = some prev)
    (h : updateFile st fp c = (.ok (), st2)) :
    st2.history = st.history.recordOperation (.update fp prev) := by
  rw [updateFile] at h
  split at h
  · cases hr : st.storage.fsRead fp with
    | error e =>
      rw [hr] at h
      dsimp only at h
      simp at h
    | ok prev2 =>
      have hpe : prev2 = prev := by
        rw [Storage.fsRead, hprev] at hr
        simpa using hr.symm
      subst hpe
      rw [hr] at h
      dsimp only at h
      cases hw : st.storage.fsWrite fp c with
      | error e =>
        rw [hw] at h
        dsimp only at h
        simp at h
      | ok s2 =>
        rw [hw] at h
        dsimp only at h
        simp only [Prod.mk.injEq] at h
        rw [← h.2]
  · simp at h

theorem deleteFile_ok_history (st st2 : SysState) (fp : FilePath2) (prev : ByteSeq)
    (hprev : st.storage.lookup fp = some prev)
    (h : deleteFile st fp = (.ok (), st2)) :
    st2.history = st.history.recordOperation (.delete fp prev) := by
  rw [deleteFile] at h
  split at h
  · cases hr : st.storage.fsRead fp with
    | error e =>
      rw [hr] at h
      dsimp only at h
      simp at h
    | ok prev2 =>
      have hpe : prev2 = prev := by
        rw [Storage.fsRead, hprev] at hr
        simpa using hr.symm
      subst hpe
      rw [hr] at h
      dsimp only at h
      cases hw : st.storage.fsDelete fp with
      | error e =>
        rw [hw] at h
        dsimp only at h
        simp at h
      | ok s2 =>
        rw [hw] at h
        dsimp only at h
        simp only [Prod.mk.injEq] at h
        rw [← h.2]
  · simp at h

/- Claim theorems. -/

/-- C1 counterexample: a description of length 4000 has estimate exactly
2000, and _generateProjectStructure selects the Flat strategy there
(the source condition is strictly greater than 2000), contradicting the
claim that an estimate equal to 2000 selects Chunked. -/
theorem strategyThreshold_counterexample :
    estimatedTokens 4000 = 2000 ∧ usesChunkedStrategy 4000 = false := by
  constructor
  · norm_num [estimatedTokens]
  · simp [usesChunkedStrategy, estimatedTokens]
    norm_num

/-- C1 (amended): the Flat strategy is selected exactly when the
estimate is at or below 2000, and the Chunked strategy exactly when the
estimate is strictly above 2000, equivalently when the description
length is strictly above 4000. -/
theorem strategyThreshold_amended (descriptionLength : Nat) :
    (usesChunkedStrategy descriptionLength = true ↔
      (2000 : ℚ) < estimatedTokens descriptionLength) ∧
    (usesChunkedStrategy descriptionLength = false ↔
      estimatedTokens descriptionLength ≤ 2000) ∧
    (usesChunkedStrategy descriptionLength = true ↔ 4000 < descriptionLength) := by
  have key : ((2000 : ℚ) < estimatedTokens descriptionLength) ↔ 4000 < descriptionLength := by
    rw [estimatedTokens]
    have h4 : (descriptionLength : ℚ) = 4 * ((descriptionLength : ℚ) / 4) := by ring
    constructor
    · intro h
      have : (4000 : ℚ) < (descriptionLength : ℚ) := by linarith
      exact_mod_cast this
    · intro h
      have : (4000 : ℚ) < (descriptionLength : ℚ) := by exact_mod_cast h
      linarith
  refine ⟨by simp [usesChunkedStrategy], ?_, ?_⟩
  · rw [usesChunkedStrategy]
    simp [not_lt]
  · rw [usesChunkedStrategy]
    simpa using key

/-- C2 counterexample: the path appears in storage with content, yet its
stat is broken, so the existence probe reports absence; createFile then
succeeds, overwrites the stored bytes and records a log entry, refuting
the claim that create on an existing path always fails with
AlreadyExists and never mutates storage. -/
theorem createExisting_counterexample :
    createFile ⟨⟨[(["a"], [1])], [[]], [["a"]], [], []⟩, ⟨[], 100⟩⟩ ["a"] [2] =
      (.ok (), ⟨⟨[(["a"], [2])], [[]], [["a"]], [], []⟩,
        ⟨[FileOperation.create ["a"]], 100⟩⟩) := by
  rfl

/-- C2 (amended): for every path that already exists in storage, whose
stat succeeds, and whose parent directory also stats successfully,
createFile fails with AlreadyExists, leaves the whole state (storage and
history) exactly unchanged, and records no operation. -/
theorem createExisting_amended (st : SysState) (fp : FilePath2) (content b : ByteSeq)
    (h1 : st.storage.lookup fp = some b)
    (h2 : fp ∉ st.storage.statBroken)
    (h3 : st.storage.stat fp.dropLast = .ok ()) :
    createFile st fp content = (.error (.alreadyExists fp), st) := by
  have hdir : ensureDirectory st.storage fp.dropLast = st.storage := by
    rw [ensureDirectory, h3]
  have hstat : st.storage.stat fp = .ok () := by
    rw [Storage.stat, if_neg h2, if_pos (Or.inl (by rw [h1]; rfl))]
  have hex : fileExists st.storage fp = true := fileExists_true_of_stat_ok _ _ hstat
  simp only [createFile, hdir, hex]
  rfl

/-- C2 (amended) witness at a concrete state: a stored file whose stat
works and whose parent directory exists. -/
theorem createExisting_amended_witness :
    createFile ⟨⟨[(["a"], [1])], [[]], [], [], []⟩, ⟨[], 100⟩⟩ ["a"] [2] =
      (.error (.alreadyExists ["a"]),
        ⟨⟨[(["a"], [1])], [[]], [], [], []⟩, ⟨[], 100⟩⟩) :=
  createExisting_amended ⟨⟨[(["a"], [1])], [[]], [], [], []⟩, ⟨[], 100⟩⟩
    ["a"] [2] [1] rfl (by decide) rfl

/-- C3: the Operation Log never exceeds its capacity; starting from an
empty log, any record sequence leaves exactly the most recent entries in
insertion order (the drop of all but the last N); and a record arriving
at a full log evicts the single oldest entry from the head and appends
the new entry at the tail. -/
theorem historyCapacity_theorem (n : Nat) (l : List FileOperation)
    (h : HistoryManager) (op : FileOperation)
    (hfull : h.operations.length = h.maxHistorySize)
    (hpos : 1 ≤ h.maxHistorySize) :
    (recordAll ⟨[], n⟩ l).operations.length ≤ n ∧
    (recordAll ⟨[], n⟩ l).operations = l.drop (l.length - n) ∧
    (h.recordOperation op).operations = h.operations.tail ++ [op] := by
  refine ⟨?_, recordAll_operations n l, ?_⟩
  · rw [recordAll_operations n l, List.length_drop]
    omega
  · rw [HistoryManager.recordOperation]
    dsimp only
    rw [if_pos (by rw [List.length_append, hfull]; simp)]
    cases hops : h.operations with
    | nil =>
      rw [hops] at hfull
      simp at hfull
      omega
    | cons x xs =>
      rw [List.cons_append, List.drop_one, List.tail_cons, List.tail_cons]

/-- C3 witness: capacity 2 with three records keeps the last two
entries, and a record at a full log of capacity 1 evicts the head. -/
theorem historyCapacity_witness :
    (recordAll ⟨[], 2⟩ [.create ["a"], .create ["b"], .create ["c"]]).operations.length ≤ 2 ∧
    (recordAll ⟨[], 2⟩ [.create ["a"], .create ["b"], .create ["c"]]).operations =
      ([.create ["a"], .create ["b"], .create ["c"]] : List FileOperation).drop
        (([.create ["a"], .create ["b"], .create ["c"]] : List FileOperation).length - 2) ∧
    ((⟨[.create ["x"]], 1⟩ : HistoryManager).recordOperation (.create ["y"])).operations =
      ([.create ["x"]] : List FileOperation).tail ++ [.create ["y"]] :=
  historyCapacity_theorem 2 [.create ["a"], .create ["b"], .create ["c"]]
    ⟨[.create ["x"]], 1⟩ (.create ["y"]) (by decide) (by decide)

/-- C4: undoing a recorded operation inverts the mutation.  In each of
three scenarios the mutating call succeeds and is followed by a
successful undoLast: after create plus undo the path is gone; after
update plus undo the path holds exactly the pre-update bytes; after
delete plus undo the path holds exactly the pre-delete bytes. -/
theorem undoInverts_theorem
    (stc stu std stc2 stu2 std2 stc3 stu3 std3 : SysState)
    (p q r : FilePath2) (c cu : ByteSeq) (pu pd : ByteSeq)
    (hcm : 1 ≤ stc.history.maxHistorySize)
    (hum : 1 ≤ stu.history.maxHistorySize)
    (hdm : 1 ≤ std.history.maxHistorySize)
    (hc1 : createFile stc p c = (.ok (), stc2))
    (hc2 : undoLast stc2 = (.undone, stc3))
    (hu0 : stu.storage.lookup q = some pu)
    (hu1 : updateFile stu q cu = (.ok (), stu2))
    (hu2 : undoLast stu2 = (.undone, stu3))
    (hd0 : std.storage.lookup r = some pd)
    (hd1 : deleteFile std r = (.ok (), std2))
    (hd2 : undoLast std2 = (.undone, std3)) :
    stc3.storage.lookup p = none ∧
    stu3.storage.lookup q = some pu ∧
    std3.storage.lookup r = some pd := by
  refine ⟨?_, ?_, ?_⟩
  · have hh : stc2.history = stc.history.recordOperation (.create p) :=
      createFile_ok_history stc stc2 p c hc1
    have hlast : stc2.history.operations.getLast? = some (.create p) := by
      rw [hh]
      exact recordOperation_getLast _ _ hcm
    cases happ : (FileOperation.create p).applyUndo stc2.storage with
    | error e =>
      rw [undoLast_err stc2 _ e hlast happ] at hc2
      simp at hc2
    | ok t =>
      rw [undoLast_ok stc2 _ t hlast happ] at hc2
      simp only [Prod.mk.injEq, true_and] at hc2
      have hdel : stc2.storage.fsDelete p = .ok t :=
        mapError_ok_inv _ _ _ happ
      rw [← hc2]
      exact fsDelete_ok_lookup _ _ _ hdel
  · have hh : stu2.history = stu.history.recordOperation (.update q pu) :=
      updateFile_ok_history stu stu2 q cu pu hu0 hu1
    have hlast : stu2.history.operations.getLast? = some (.update q pu) := by
      rw [hh]
      exact recordOperation_getLast _ _ hum
    cases happ : (FileOperation.update q pu).applyUndo stu2.storage with
    | error e =>
      rw [undoLast_err stu2 _ e hlast happ] at hu2
      simp at hu2
    | ok t =>
      rw [undoLast_ok stu2 _ t hlast happ] at hu2
      simp only [Prod.mk.injEq, true_and] at hu2
      have hwr : stu2.storage.fsWrite q pu = .ok t :=
        mapError_ok_inv _ _ _ happ
      rw [← hu2]
      exact fsWrite_ok_lookup _ _ _ _ hwr
  · have hh : std2.history = std.history.recordOperation (.delete r pd) :=
      deleteFile_ok_history std std2 r pd hd0 hd1
    have hlast : std2.history.operations.getLast? = some (.delete r pd) := by
      rw [hh]
      exact recordOperation_getLast _ _ hdm
    cases happ : (FileOperation.delete r pd).applyUndo std2.storage with
    | error e =>
      rw [undoLast_err std2 _ e hlast happ] at hd2
      simp at hd2
    | ok t =>
      rw [undoLast_ok std2 _ t hlast happ] at hd2
      simp only [Prod.mk.injEq, true_and] at hd2
      have hwr : std2.storage.fsWrite r pd = .ok t :=
        mapError_ok_inv _ _ _ happ
      rw [← hd2]
      exact fsWrite_ok_lookup _ _ _ _ hwr

/-- C4 witness: three concrete runs (create then undo, update then undo,
delete then undo) with every step evaluated. -/
theorem undoInverts_witness :
    (⟨⟨[], [[]], [], [], []⟩, ⟨[], 100⟩⟩ : SysState).storage.lookup ["a"] = none ∧
    (⟨⟨[(["b"], [1, 2])], [[]], [], [], []⟩, ⟨[], 100⟩⟩ : SysState).storage.lookup ["b"] =
      some [1, 2] ∧
    (⟨⟨[(["c"], [3])], [[]], [], [], []⟩, ⟨[], 100⟩⟩ : SysState).storage.lookup ["c"] =
      some [3] :=
  undoInverts_theorem
    ⟨⟨[], [[]], [], [], []⟩, ⟨[], 100⟩⟩
    ⟨⟨[(["b"], [1, 2])], [[]], [], [], []⟩, ⟨[], 100⟩⟩
    ⟨⟨[(["c"], [3])], [[]], [], [], []⟩, ⟨[], 100⟩⟩
    ⟨⟨[(["a"], [7])], [[]], [], [], []⟩, ⟨[.create ["a"]], 100⟩⟩
    ⟨⟨[(["b"], [9])], [[]], [], [], []⟩, ⟨[.update ["b"] [1, 2]], 100⟩⟩
    ⟨⟨[], [[]], [], [], []⟩, ⟨[.delete ["c"] [3]], 100⟩⟩
    ⟨⟨[], [[]], [], [], []⟩, ⟨[], 100⟩⟩
    ⟨⟨[(["b"], [1, 2])], [[]], [], [], []⟩, ⟨[], 100⟩⟩
    ⟨⟨[(["c"], [3])], [[]], [], [], []⟩, ⟨[], 100⟩⟩
    ["a"] ["b"] ["c"] [7] [9] [1, 2] [3]
    (by decide) (by decide) (by decide)
    rfl rfl rfl rfl rfl rfl rfl rfl

/-- C5: undo consumes the log in LIFO order — from any log ending in
o1, o2, o3 (recorded in that order), three consecutive undoLast calls
reverse o3 first, then o2, then o1, each popping exactly its entry. -/
theorem undoLifo_theorem (s0 t3 t2 t1 : Storage) (n : Nat)
    (init : List FileOperation) (o1 o2 o3 : FileOperation)
    (h3 : o3.applyUndo s0 = .ok t3) (h2 : o2.applyUndo t3 = .ok t2)
    (h1 : o1.applyUndo t2 = .ok t1) :
    undoLast ⟨s0, ⟨init ++ [o1, o2, o3], n⟩⟩ = (.undone, ⟨t3, ⟨init ++ [o1, o2], n⟩⟩) ∧
    undoLast ⟨t3, ⟨init ++ [o1, o2], n⟩⟩ = (.undone, ⟨t2, ⟨init ++ [o1], n⟩⟩) ∧
    undoLast ⟨t2, ⟨init ++ [o1], n⟩⟩ = (.undone, ⟨t1, ⟨init, n⟩⟩) := by
  have e3 : init ++ [o1, o2, o3] = (init ++ [o1, o2]) ++ [o3] := by simp
  have e2 : init ++ [o1, o2] = (init ++ [o1]) ++ [o2] := by simp
  refine ⟨?_, ?_, ?_⟩
  · have hlast : (init ++ [o1, o2, o3]).getLast? = some o3 := by
      rw [e3]
      exact List.getLast?_concat _
    have := undoLast_ok ⟨s0, ⟨init ++ [o1, o2, o3], n⟩⟩ o3 t3 hlast h3
    rw [show (init ++ [o1, o2, o3]).dropLast = init ++ [o1, o2] by
      rw [e3]; exact List.dropLast_concat] at this
    exact this
  · have hlast : (init ++ [o1, o2]).getLast? = some o2 := by
      rw [e2]
      exact List.getLast?_concat _
    have := undoLast_ok ⟨t3, ⟨init ++ [o1, o2], n⟩⟩ o2 t2 hlast h2
    rw [show (init ++ [o1, o2]).dropLast = init ++ [o1] by
      rw [e2]; exact List.dropLast_concat] at this
    exact this
  · have hlast : (init ++ [o1]).getLast? = some o1 := List.getLast?_concat _
    have := undoLast_ok ⟨t2, ⟨init ++ [o1], n⟩⟩ o1 t1 hlast h1
    rw [List.dropLast_concat] at this
    exact this

/-- C5 witness: three concrete operations undone in LIFO order on a
concrete storage, with an older entry left untouched below them. -/
theorem undoLifo_witness :
    undoLast ⟨⟨[], [], [], [], []⟩,
        ⟨[.create ["z"]] ++ [.create ["u"], .delete ["d"] [2], .update ["u"] [3]], 100⟩⟩ =
      (.undone, ⟨⟨[(["u"], [3])], [], [], [], []⟩,
        ⟨[.create ["z"]] ++ [.create ["u"], .delete ["d"] [2]], 100⟩⟩) ∧
    undoLast ⟨⟨[(["u"], [3])], [], [], [], []⟩,
        ⟨[.create ["z"]] ++ [.create ["u"], .delete ["d"] [2]], 100⟩⟩ =
      (.undone, ⟨⟨[(["d"], [2]), (["u"], [3])], [], [], [], []⟩,
        ⟨[.create ["z"]] ++ [.create ["u"]], 100⟩⟩) ∧
    undoLast ⟨⟨[(["d"], [2]), (["u"], [3])], [], [], [], []⟩,
        ⟨[.create ["z"]] ++ [.create ["u"]], 100⟩⟩ =
      (.undone, ⟨⟨[(["d"], [2])], [], [], [], []⟩, ⟨[.create ["z"]], 100⟩⟩) :=
  undoLifo_theorem ⟨[], [], [], [], []⟩
    ⟨[(["u"], [3])], [], [], [], []⟩
    ⟨[(["d"], [2]), (["u"], [3])], [], [], [], []⟩
    ⟨[(["d"], [2])], [], [], [], []⟩
    100 [.create ["z"]]
    (.create ["u"]) (.delete ["d"] [2]) (.update ["u"] [3])
    rfl rfl rfl

/-- C6: when the reversal of the popped operation fails, undoLast
reports the failure with the underlying cause, the popped entry is not
re-pushed (the remaining log is exactly the prefix, one entry shorter),
the storage is untouched, and no further reversal is attempted. -/
theorem undoFailure_theorem (s0 : Storage) (n : Nat) (init : List FileOperation)
    (o : FileOperation) (e : String)
    (hf : o.applyUndo s0 = .error e) :
    undoLast ⟨s0, ⟨init ++ [o], n⟩⟩ =
      (.undoFailed ("Failed to undo operation: " ++ e), ⟨s0, ⟨init, n⟩⟩) ∧
    init.length = (init ++ [o]).length - 1 := by
  constructor
  · have hlast : (init ++ [o]).getLast? = some o := List.getLast?_concat _
    have := undoLast_err ⟨s0, ⟨init ++ [o], n⟩⟩ o e hlast hf
    rw [List.dropLast_concat] at this
    exact this
  · simp

/-- C6 witness: undoing a create whose delete is broken fails, leaves
the storage unchanged and the log one entry shorter. -/
theorem undoFailure_witness :
    undoLast ⟨⟨[], [], [], [], [["x"]]⟩, ⟨[.create ["y"]] ++ [.create ["x"]], 100⟩⟩ =
      (.undoFailed ("Failed to undo operation: " ++
          ("Failed to undo file creation: " ++ "delete failed")),
        ⟨⟨[], [], [], [], [["x"]]⟩, ⟨[.create ["y"]], 100⟩⟩) ∧
    ([.create ["y"]] : List FileOperation).length =
      (([.create ["y"]] : List FileOperation) ++
        ([.create ["x"]] : List FileOperation)).length - 1 :=
  undoFailure_theorem ⟨[], [], [], [], [["x"]]⟩ 100 [.create ["y"]]
    (.create ["x"]) ("Failed to undo file creation: " ++ "delete failed") rfl

/-- C7 counterexample: a structure response that contains no bracketed
array does not make _generateLargerProject fail — filePaths stays empty
and the planner silently returns a plan with no files (the source only
throws when a bracketed substring is found and JSON parsing of it then
throws), refuting the claim that the no-bracket case fails with
PlanningFailed. -/
theorem planningFailed_counterexample :
    generateLargerProject (fun _ => none) "no array here" (fun _ => .ok ("x")) =
      .ok [] := by
  rfl

/-- C7 (amended): when a bracketed substring is present but fails to
parse, the planner fails with PlanningFailed; when no bracketed array is
present, it silently proceeds with an empty path list and returns an
empty plan. -/
theorem planningFailed_amended (parse : String → Option (List String))
    (resp : String) (fileGen : String → Except String String) :
    (extractBracketInner resp.data = none →
      generateLargerProject parse resp fileGen = .ok []) ∧
    (∀ inner, extractBracketInner resp.data = some inner →
      parse ("[" ++ String.mk inner ++ "]") = none →
      generateLargerProject parse resp fileGen = .error .planningFailed) := by
  constructor
  · intro h
    simp [generateLargerProject, structurePaths, h, Except.map]
  · intro inner h1 h2
    simp [generateLargerProject, structurePaths, h1, h2, Except.map]

/-- C7 (amended) witness: both branches at concrete responses — a
bracket-free response yields the empty plan, and a bracketed response
whose parse fails yields PlanningFailed. -/
theorem planningFailed_witness :
    generateLargerProject (fun _ => none) "q r s" (fun _ => .ok ("y")) = .ok [] ∧
    generateLargerProject (fun _ => none) "[x]" (fun _ => .ok ("y")) =
      .error .planningFailed := by
  constructor
  · exact (planningFailed_amended (fun _ => none) "q r s" (fun _ => .ok ("y"))).1 (by decide)
  · exact (planningFailed_amended (fun _ => none) "[x]" (fun _ => .ok ("y"))).2
      ("x".data) (by decide) rfl

/-- C8: in the chunked content phase a failure for the file at position
k does not abort the batch — the plan keeps one entry per planned path,
in order, with entry k holding the placeholder naming the error and
every other entry holding its generated (cleaned) content. -/
theorem partialFailure_theorem (parse : String → Option (List String))
    (resp : String) (fileGen : String → Except String String)
    (ps : List String) (k : Nat) (pk : String) (e : String) (g : Nat → String)
    (hstruct : structurePaths parse resp = .ok ps)
    (hkth : ps[k]? = some pk)
    (hfail : fileGen pk = .error e)
    (hok : ∀ i p2, i ≠ k → ps[i]? = some p2 → fileGen p2 = .ok (g i)) :
    ∃ plan, generateLargerProject parse resp fileGen = .ok plan ∧
      plan.length = ps.length ∧
      plan[k]? = some ⟨pk, "// Failed to generate content for this file: " ++ e⟩ ∧
      ∀ i p2, i ≠ k → ps[i]? = some p2 →
        plan[i]? = some ⟨p2, cleanCode (g i)⟩ := by
  refine ⟨ps.map (contentFor fileGen), ?_, ?_, ?_, ?_⟩
  · simp [generateLargerProject, hstruct, Except.map]
  · simp
  · rw [List.getElem?_map, hkth]
    simp [contentFor, hfail]
  · intro i p2 hne hith
    rw [List.getElem?_map, hith]
    simp [contentFor, hok i p2 hne hith]

/-- C8 witness: a three-path plan where generation for the middle path
fails; the plan keeps three entries with the placeholder in the middle. -/
theorem partialFailure_witness :
    ∃ plan, generateLargerProject (fun _ => some ["a", "b", "c"]) "[q]"
        (fun p => if p = "b" then .error ("boom") else .ok ("code")) = .ok plan ∧
      plan.length = (["a", "b", "c"] : List String).length ∧
      plan[1]? = some ⟨"b", "// Failed to generate content for this file: " ++ "boom"⟩ ∧
      ∀ i p2, i ≠ 1 → (["a", "b", "c"] : List String)[i]? = some p2 →
        plan[i]? = some ⟨p2, cleanCode ((fun _ => "code") i)⟩ := by
  refine partialFailure_theorem (fun _ => some ["a", "b", "c"]) "[q]"
    (fun p => if p = "b" then .error ("boom") else .ok ("code"))
    ["a", "b", "c"] 1 "b" "boom" (fun _ => "code") rfl rfl rfl ?_
  intro i p2 hne hith
  match i with
  | 0 =>
    simp at hith
    rw [← hith]
    rfl
  | 1 => exact absurd rfl hne
  | 2 =>
    simp at hith
    rw [← hith]
    rfl
  | (j + 3) => simp at hith

/-- C9 counterexample: an update-plan entry with action create and no
content is not rejected — the dispatch substitutes the empty content and
createFile runs, creating a zero-byte file and recording an operation,
refuting the claim that an entry missing content is rejected rather than
applied. -/
theorem updateDispatch_counterexample :
    applyUpdateEntry ⟨⟨[], [[]], [], [], []⟩, ⟨[], 100⟩⟩ ⟨["f"], "create", none⟩ =
      (.ok (), ⟨⟨[(["f"], [])], [[]], [], [], []⟩,
        ⟨[FileOperation.create ["f"]], 100⟩⟩) := by
  rfl

/-- C9 (amended): every update-plan entry is dispatched to createFile,
updateFile or deleteFile according to its action tag, and for create and
update a missing content is substituted with the empty content rather
than rejected — in particular a create entry with no content on a fresh
path succeeds and writes a zero-byte file. -/
theorem updateDispatch_amended (st : SysState) (e : UpdateEntry) :
    (e.action = "create" →
      applyUpdateEntry st e = createFile st e.path (e.content.getD [])) ∧
    (e.action = "update" →
      applyUpdateEntry st e = updateFile st e.path (e.content.getD [])) ∧
    (e.action = "delete" → applyUpdateEntry st e = deleteFile st e.path) ∧
    (e.action = "create" → e.content = none →
      fileExists (ensureDirectory st.storage e.path.dropLast) e.path = false →
      e.path ∉ (ensureDirectory st.storage e.path.dropLast).writeBroken →
      ∃ s2, applyUpdateEntry st e =
          (.ok (), ⟨s2, st.history.recordOperation (.create e.path)⟩) ∧
        s2.lookup e.path = some []) := by
  refine ⟨?_, ?_, ?_, ?_⟩
  · intro h
    simp [applyUpdateEntry, h]
  · intro h
    simp [applyUpdateEntry, h]
  · intro h
    simp [applyUpdateEntry, h]
  · intro hc hnone hex hwb
    have hw : (ensureDirectory st.storage e.path.dropLast).fsWrite e.path [] =
        .ok { ensureDirectory st.storage e.path.dropLast with
          files := (e.path, []) :: (ensureDirectory st.storage e.path.dropLast).files.filter
            (fun x => decide (x.1 ≠ e.path)) } := by
      rw [Storage.fsWrite, if_neg hwb]
    refine ⟨_, ?_, fsWrite_ok_lookup _ _ _ _ hw⟩
    simp [applyUpdateEntry, hc, hnone, createFile, hex, hw]

/-- C9 (amended) witness: the concrete create entry with missing content
applied through the dispatch, producing the zero-byte file. -/
theorem updateDispatch_witness :
    ∃ s2, applyUpdateEntry ⟨⟨[], [[]], [], [], []⟩, ⟨[], 100⟩⟩ ⟨["f"], "create", none⟩ =
        (.ok (), ⟨s2, (⟨[], 100⟩ : HistoryManager).recordOperation (.create ["f"])⟩) ∧
      s2.lookup ["f"] = some [] :=
  (updateDispatch_amended ⟨⟨[], [[]], [], [], []⟩, ⟨[], 100⟩⟩
    ⟨["f"], "create", none⟩).2.2.2 rfl rfl rfl (by decide)

/-- C10: fileExists is total and collapses every stat failure into
absence; consequently a path whose stat raises an IOError is treated as
absent everywhere — updateFile and deleteFile report the does-not-exist
error (not an IOError) and leave the state unchanged, and createFile
does not report AlreadyExists but proceeds to write (succeeding whenever
the write itself works, even overwriting actually-present bytes). -/
theorem fileExistsCollapse_theorem (st : SysState) (fp : FilePath2) (c : ByteSeq)
    (h : st.storage.stat fp = .error .ioError) :
    fileExists st.storage fp = false ∧
    updateFile st fp c = (.error (.notFound fp), st) ∧
    deleteFile st fp = (.error (.notFound fp), st) ∧
    (fp ∉ st.storage.writeBroken →
      (createFile st fp c).1 = .ok () ∧
      (createFile st fp c).2.storage.lookup fp = some c) := by
  have hex : fileExists st.storage fp = false := fileExists_false_of_stat_err _ _ _ h
  refine ⟨hex, ?_, ?_, ?_⟩
  · simp [updateFile, hex]
  · simp [deleteFile, hex]
  · intro hwb
    have hmem : fp ∈ st.storage.statBroken := stat_ioError_mem _ _ h
    have hmem1 : fp ∈ (ensureDirectory st.storage fp.dropLast).statBroken := by
      rw [ensureDirectory_statBroken]
      exact hmem
    have hstat1 : (ensureDirectory st.storage fp.dropLast).stat fp = .error .ioError := by
      rw [Storage.stat, if_pos hmem1]
    have hex1 : fileExists (ensureDirectory st.storage fp.dropLast) fp = false :=
      fileExists_false_of_stat_err _ _ _ hstat1
    have hwb1 : fp ∉ (ensureDirectory st.storage fp.dropLast).writeBroken := by
      rw [ensureDirectory_writeBroken]
      exact hwb
    have hw : (ensureDirectory st.storage fp.dropLast).fsWrite fp c =
        .ok { ensureDirectory st.storage fp.dropLast with
          files := (fp, c) :: (ensureDirectory st.storage fp.dropLast).files.filter
            (fun x => decide (x.1 ≠ fp)) } := by
      rw [Storage.fsWrite, if_neg hwb1]
    constructor
    · simp [createFile, hex1, hw]
    · simp [createFile, hex1, hw, Storage.lookup, List.find?_cons_of_pos]

/-- C10 witness: a stored file whose stat is broken — the probe reports
absence, update and delete report the does-not-exist error, and create
overwrites it. -/
theorem fileExistsCollapse_witness :
    fileExists (⟨[(["g"], [5])], [[]], [["g"]], [], []⟩ : Storage) ["g"] = false ∧
    updateFile ⟨⟨[(["g"], [5])], [[]], [["g"]], [], []⟩, ⟨[], 100⟩⟩ ["g"] [9] =
      (.error (.notFound ["g"]),
        ⟨⟨[(["g"], [5])], [[]], [["g"]], [], []⟩, ⟨[], 100⟩⟩) ∧
    deleteFile ⟨⟨[(["g"], [5])], [[]], [["g"]], [], []⟩, ⟨[], 100⟩⟩ ["g"] =
      (.error (.notFound ["g"]),
        ⟨⟨[(["g"], [5])], [[]], [["g"]], [], []⟩, ⟨[], 100⟩⟩) ∧
    (["g"] ∉ (⟨[(["g"], [5])], [[]], [["g"]], [], []⟩ : Storage).writeBroken →
      (createFile ⟨⟨[(["g"], [5])], [[]], [["g"]], [], []⟩, ⟨[], 100⟩⟩ ["g"] [9]).1 =
        .ok () ∧
      (createFile ⟨⟨[(["g"], [5])], [[]], [["g"]], [], []⟩,
          ⟨[], 100⟩⟩ ["g"] [9]).2.storage.lookup ["g"] = some [9]) :=
  fileExistsCollapse_theorem ⟨⟨[(["g"], [5])], [[]], [["g"]], [], []⟩, ⟨[], 100⟩⟩
    ["g"] [9] rfl
